import Mathlib

/-!
Verification development for the SWG merchant log ingestion pipeline
(`swg_merchant.py`).  The Python source is shallowly embedded: pure helpers
become Lean functions, the SQLite tables become lists of row structures, and
the per-artifact ingestion step of `main` becomes an explicit state-passing
function.  SQLite constraint failures (CHECK / UNIQUE / FK) are modelled as
operations that leave the state unchanged and report failure, mirroring a
raised `IntegrityError`.
-/

/-- Whitespace characters recognised by Python `str.strip` / regex `\s`
(ASCII subset; the inputs are ASCII). -/
def isWsChar (c : Char) : Bool :=
  c = ' ' || c = '\t' || c = '\n' || c = '\r' || c = Char.ofNat 11 || c = Char.ofNat 12

/-- Python `str.strip()`: remove leading and trailing whitespace. -/
def pyStrip (s : String) : String :=
  String.mk (((s.toList.dropWhile isWsChar).reverse.dropWhile isWsChar).reverse)

/-- Lowercasing used to model Python `str.casefold()` / `re.IGNORECASE`
(ASCII inputs, where casefold agrees with lower). -/
def lowerStr (s : String) : String :=
  String.mk (s.toList.map Char.toLower)

/-- Is `n` a prefix of `h` (character lists)? -/
def isPrefixList : List Char → List Char → Bool
  | [], _ => true
  | _ :: _, [] => false
  | a :: as, b :: bs => a = b && isPrefixList as bs

/-- Substring containment on character lists (`needle`, `haystack`),
modelling Python `needle in haystack`. -/
def hasSub (n : List Char) : List Char → Bool
  | [] => isPrefixList n []
  | c :: t => isPrefixList n (c :: t) || hasSub n t

/-- Python `needle in hay` on strings (case-sensitive). -/
def occurs (needle hay : String) : Bool :=
  hasSub needle.toList hay.toList

/-- Value of a digit string, modelling Python `int(...)` on a `\d+` capture. -/
def natOfDigits (s : String) : Nat :=
  s.toList.foldl (fun n c => n * 10 + (c.toNat - 48)) 0

/-- Case-insensitively strip the literal `lit` from the front of `cs`,
returning the remainder on success. -/
def stripLitCI : List Char → List Char → Option (List Char)
  | [], cs => some cs
  | _ :: _, [] => none
  | a :: as, b :: bs => if a.toLower = b.toLower then stripLitCI as bs else none

/-- Tokens of the three regular expressions used by the parser
(`SALE_RE`, `PURCHASE_RE`, `TS_RE`).  `lit` is a case-insensitive literal,
`ws0`/`ws1` are `\s*`/`\s+`, `lazygrp` is a lazy capturing group `(.+?)`,
and `diggrp` is a greedy capturing group `(\d+)`. -/
inductive Tok where
  | lit (s : String)
  | ws0
  | ws1
  | lazygrp
  | diggrp
deriving DecidableEq, Repr

/-- Length of the leading whitespace run. -/
def wsRun (cs : List Char) : Nat :=
  (cs.takeWhile isWsChar).length

/-- Length of the leading digit run. -/
def digRun (cs : List Char) : Nat :=
  (cs.takeWhile Char.isDigit).length

/-- Backtracking matcher for a token sequence anchored at the start of `cs`
(trailing input may remain, as with `re.search`).  Returns the captured
groups in order.  Greedy pieces try longest first, lazy groups shortest
first, exactly as the backtracking regex engine does.  The `fuel` argument
only drives structural recursion; one unit is spent per token, so
`toks.length + 1` fuel always suffices (see `matchToks`). -/
def matchToksF : Nat → List Tok → List Char → Option (List String)
  | 0, _, _ => none
  | _ + 1, [], _ => some []
  | fuel + 1, Tok.lit s :: ts, cs =>
    match stripLitCI s.toList cs with
    | some cs' => matchToksF fuel ts cs'
    | none => none
  | fuel + 1, Tok.ws0 :: ts, cs =>
    (List.range (wsRun cs + 1)).reverse.findSome?
      (fun k => matchToksF fuel ts (cs.drop k))
  | fuel + 1, Tok.ws1 :: ts, cs =>
    ((List.range (wsRun cs + 1)).reverse.filter (fun k => 1 ≤ k)).findSome?
      (fun k => matchToksF fuel ts (cs.drop k))
  | fuel + 1, Tok.lazygrp :: ts, cs =>
    (List.range cs.length).findSome? (fun j =>
      let k := j + 1
      let g := cs.take k
      if g.contains '\n' then none
      else (matchToksF fuel ts (cs.drop k)).map (fun gs => String.mk g :: gs))
  | fuel + 1, Tok.diggrp :: ts, cs =>
    ((List.range (digRun cs + 1)).reverse.filter (fun k => 1 ≤ k)).findSome?
      (fun k => (matchToksF fuel ts (cs.drop k)).map
        (fun gs => String.mk (cs.take k) :: gs))

/-- Matcher entry point with sufficient fuel. -/
def matchToks (toks : List Tok) (cs : List Char) : Option (List String) :=
  matchToksF (toks.length + 1) toks cs

/-- `re.search`: try the token sequence at each start position, leftmost
match wins. -/
def searchToks (toks : List Tok) : List Char → Option (List String)
  | [] => matchToks toks []
  | c :: cs =>
    match matchToks toks (c :: cs) with
    | some gs => some gs
    | none => searchToks toks cs

/-- `SALE_RE`: `Vendor:\s*(.+?)\s+has sold\s+(.+?)\s+to\s+(.+?)\s+for\s+(\d+)\s+credits`. -/
def saleToks : List Tok :=
  [Tok.lit "Vendor:", Tok.ws0, Tok.lazygrp, Tok.ws1, Tok.lit "has sold", Tok.ws1,
   Tok.lazygrp, Tok.ws1, Tok.lit "to", Tok.ws1, Tok.lazygrp, Tok.ws1, Tok.lit "for",
   Tok.ws1, Tok.diggrp, Tok.ws1, Tok.lit "credits"]

/-- `PURCHASE_RE`: `You have won the auction of "(.+?)" from "(.+?)" for (\d+) credits.*`
(the trailing `.*` matches anything and captures nothing). -/
def purchaseToks : List Tok :=
  [Tok.lit "You have won the auction of \"", Tok.lazygrp, Tok.lit "\" from \"",
   Tok.lazygrp, Tok.lit "\" for ", Tok.diggrp, Tok.lit " credits"]

/-- `TS_RE`: `TIMESTAMP:\s*(\d+)`. -/
def tsToks : List Tok :=
  [Tok.lit "TIMESTAMP:", Tok.ws0, Tok.diggrp]

/-- Proleptic-Gregorian civil date from a count of days since 1970-01-01
(days ≥ 0), returning (year, month, day). -/
def civilFromDays (days : Nat) : Nat × Nat × Nat :=
  let z := days + 719468
  let era := z / 146097
  let doe := z % 146097
  let yoe := (doe - doe / 1460 + doe / 36524 - doe / 146096) / 365
  let y := yoe + era * 400
  let doy := doe - (365 * yoe + yoe / 4 - yoe / 100)
  let mp := (5 * doy + 2) / 153
  let d := doy - (153 * mp + 2) / 5 + 1
  let m := if mp < 10 then mp + 3 else mp - 9
  ((if m ≤ 2 then y + 1 else y), m, d)

def pad2 (n : Nat) : String :=
  if n < 10 then "0" ++ toString n else toString n

def pad4 (n : Nat) : String :=
  if n < 1000 then
    (if n < 10 then "000" else if n < 100 then "00" else "0") ++ toString n
  else toString n

/-- Rendering of a Unix timestamp (seconds ≥ 0) as `%Y-%m-%d %H:%M:%S` in UTC. -/
def fmtUTC (ts : Nat) : String :=
  let days := ts / 86400
  let sod := ts % 86400
  let ymd := civilFromDays days
  pad4 ymd.1 ++ "-" ++ pad2 ymd.2.1 ++ "-" ++ pad2 ymd.2.2 ++ " " ++
    pad2 (sod / 3600) ++ ":" ++ pad2 (sod % 3600 / 60) ++ ":" ++ pad2 (sod % 60)

/-- `datetime.datetime.fromtimestamp(ts).strftime("%Y-%m-%d %H:%M:%S")`:
renders the instant in the process's LOCAL timezone.  Modelled for a fixed
local UTC offset `tzOff` (seconds): the local rendering of `ts` is the UTC
rendering of the shifted epoch value (instants at/after the epoch). -/
def fmtLocal (tzOff : Int) (ts : Nat) : String :=
  fmtUTC ((ts : Int) + tzOff).toNat

/-- The typed event produced by `parse_mail_file`: the two dict shapes
`{"type": "sale", ...}` and `{"type": "purchase", ...}`. -/
inductive Event where
  | sale (sale_date vendor item customer : String) (amount : Int)
  | purchase (sale_date vendor item : String) (amount : Int)
deriving DecidableEq, Repr

def Event.amount : Event → Int
  | .sale _ _ _ _ a => a
  | .purchase _ _ _ a => a

def Event.item : Event → String
  | .sale _ _ i _ _ => i
  | .purchase _ _ i _ => i

def Event.sale_date : Event → String
  | .sale d _ _ _ _ => d
  | .purchase d _ _ _ => d

/-- `_read_nonempty_lines`: strip every line, keep the non-empty ones.
An artifact's content is modelled as its list of raw lines. -/
def read_nonempty_lines (rawLines : List String) : List String :=
  (rawLines.map pyStrip).filter (fun l => l ≠ "")

/-- The tail of `parse_mail_file` after the minimum-line check has passed:
timestamp extraction, event-kind dispatch and the body-line patterns. -/
def parse_body (tzOff : Int) (lines : List String) : Option Event :=
  let event_line := pyStrip (lines.getD 2 "")
  let timestamp_line := lines.getD 3 ""
  let sale_line := lines.getD 4 ""
  match searchToks tsToks timestamp_line.toList with
  | some [tsStr] =>
    let ts := natOfDigits tsStr
    let sale_date := fmtLocal tzOff ts
    if occurs "Vendor Sale Complete" event_line then
      match searchToks saleToks sale_line.toList with
      | some [v, i, c, a] =>
        some (Event.sale sale_date (pyStrip v) (pyStrip i) (pyStrip c)
          ((natOfDigits a : Nat) : Int))
      | _ => none
    else if occurs "Vendor Item Purchased" event_line then
      match searchToks purchaseToks sale_line.toList with
      | some [i, v, a] =>
        some (Event.purchase sale_date (pyStrip v) (pyStrip i)
          ((natOfDigits a : Nat) : Int))
      | _ => none
    else none
  | _ => none

/-- `parse_mail_file`: non-empty lines, minimum line count, then the body. -/
def parse_mail_file (tzOff : Int) (rawLines : List String) : Option Event :=
  let lines := read_nonempty_lines rawLines
  if lines.length < 6 then none
  else parse_body tzOff lines

/-- `classify_vendor_and_item`: ordered case-insensitive substring
heuristics mapping (entry type, vendor, item) to (profession, category). -/
def classify_vendor_and_item (entry_type vendor item : String) :
    Option String × Option String :=
  let v := lowerStr vendor
  let i := lowerStr item
  if entry_type = "sale" then
    if occurs "armor and vehicles" v then
      if ["ab-1", "eta-1", "flare s swoop", "xj-6", "basilisk war droid"].any
          (fun w => occurs w i) then (some "Artisan", some "Vehicle")
      else if occurs "bone" i then (some "Armorsmith", some "Bone Armor")
      else if occurs "composite" i then (some "Armorsmith", some "Composite")
      else if occurs "psg" i || occurs "personal shield" i then
        (some "Armorsmith", some "PSG")
      else if occurs "r.i.s." i then (some "Armorsmith", some "RIS")
      else if occurs "tantel" i then (some "Armorsmith", some "Tantel")
      else (some "Armorsmith", none)
    else if occurs "buffbot" v then (some "Doctor", some "Buff")
    else if occurs "chef" v then (some "Chef", some "Chef")
    else if occurs "pets" v then
      (some "Bio-Engineer", if occurs "egg" i then some "Incubation" else some "Pet")
    else if occurs "pharmaceuticals" v then
      if ["active", "coagulant", "fear release", "scent", "tensile"].any
          (fun w => occurs w i) then (some "Bio-Engineer", some "BE Tissue")
      else if ["buff", "enhance", "small stimpack"].any (fun w => occurs w i) then
        (some "Doctor",
          if ["buff", "enhance"].any (fun w => occurs w i) then some "Buff Packs"
          else some "Stimpack")
      else if occurs "hssiss" i then (some "Combat Medic", some "Dart")
      else if occurs "pet stimpack" i || occurs "vitality" i then
        (some "Bio-Engineer", some "Stimpack")
      else (none, none)
    else if occurs "resources" v then (some "Artisan", some "Resources")
    else if occurs "weapons" v then
      (some "Weaponsmith",
        if occurs "carbine" i then some "Carbine"
        else if occurs "two-handed curved sword" i then some "Two Hand"
        else if occurs "curved sword" i then some "One Hand"
        else if occurs "rifle" i then some "Rifle"
        else if occurs "vibro knuckler" i then some "Unarmed"
        else if occurs "flame thrower" i || occurs "flamethrower" i ||
            occurs "launcher pistol" i then some "Commando"
        else if occurs "pistol" i || occurs "dl44 xt" i then some "Pistol"
        else if occurs "long vibro axe" i || occurs "nightsister energy lance" i then
          some "Polearm"
        else none)
    else if occurs "world drops" v then
      (some "loot",
        if ["[ca]", "[aa]"].any (fun w => occurs w i) then some "Tapes"
        else if ["crystal", "pearl"].any (fun w => occurs w i) then some "Crystal"
        else if ["geonosian power", "venom"].any (fun w => occurs w i) then
          some "Component"
        else if occurs "holocron" i then some "Misc"
        else if occurs "nightsister clothing" i then some "Schematic"
        else if occurs "schematic" i then some "Schematics"
        else if occurs "treasure map" i then some "Treasure Map"
        else if occurs "carbine" i then some "Carbine"
        else if occurs "two-handed curved sword" i then some "Two Hand"
        else if occurs "curved sword" i then some "One Hand"
        else if occurs "rifle" i then some "Rifle"
        else if occurs "pistol" i || occurs "dl44 xt" i then some "Pistol"
        else if occurs "long vibro axe" i || occurs "nightsister energy lance" i then
          some "Polearm"
        else none)
    else (none, none)
  else if entry_type = "purchase" then
    (none,
      if occurs "geonosian power cube" i then some "Component"
      else if occurs "blood" i then some "Blood"
      else if occurs "aurilian plant" i then some "Aurilian"
      else if occurs "cpu>" i then some "Resources"
      else none)
  else (none, none)

/-- The item trim applied in `main` on the sale path:
`re.sub(r"\s*\|\s*Epak\s*$", "", item, flags=re.IGNORECASE)` — strips one
trailing `<ws>* | <ws>* Epak <ws>*` decoration, if present. -/
def stripEpak (item : String) : String :=
  let rcs := item.toList.reverse
  let r1 := rcs.dropWhile isWsChar
  if (r1.take 4).map Char.toLower = ['k', 'a', 'p', 'e'] then
    let r2 := (r1.drop 4).dropWhile isWsChar
    match r2 with
    | '|' :: rest => String.mk ((rest.dropWhile isWsChar).reverse)
    | _ => item
  else item

/-- A row of the `customers` table. -/
structure Customer where
  id : Nat
  name : String
  total_spent : Int
  total_purchases : Int
deriving DecidableEq, Repr

/-- A row of the `sales` table. -/
structure SaleRow where
  id : Nat
  sale_date : String
  vendor : String
  item : String
  customer_id : Nat
  amount : Int
  profession : Option String
  category : Option String
deriving DecidableEq, Repr

/-- A row of the `purchases` table. -/
structure PurchaseRow where
  id : Nat
  sale_date : String
  item : String
  vendor : String
  amount : Int
  category : Option String
deriving DecidableEq, Repr

/-- A row of the `mail_ingests` table (`inserted_at` is an uninterpreted
wall-clock string and is omitted; no claim concerns it). -/
structure MailIngest where
  id : Nat
  mail_id : Option String
  file_path : String
  file_mtime : Int
  sale_id : Option Nat
  purchase_id : Option Nat
deriving DecidableEq, Repr

/-- The SQLite database state: the four tables plus the AUTOINCREMENT
counters. -/
structure DB where
  customers : List Customer
  sales : List SaleRow
  purchases : List PurchaseRow
  mail_ingests : List MailIngest
  nextCustomerId : Nat
  nextSaleId : Nat
  nextPurchaseId : Nat
  nextIngestId : Nat
deriving DecidableEq, Repr

/-- Freshly created database (`ensure_db` on a new file). -/
def emptyDB : DB := ⟨[], [], [], [], 1, 1, 1, 1⟩

/-- The `CHECK (amount >= 0)` constraint of `sales`/`purchases`. -/
def amountCheck (a : Int) : Bool := decide (0 ≤ a)

/-- The `mail_ingests` CHECK: exactly one of `sale_id`, `purchase_id` set. -/
def exclusiveRow (r : MailIngest) : Bool :=
  (r.sale_id.isSome && r.purchase_id.isNone) ||
    (r.sale_id.isNone && r.purchase_id.isSome)

/-- Foreign-key validity of one `mail_ingests` row against the current
`sales` and `purchases` tables. -/
def fkRowOK (sales : List SaleRow) (purchases : List PurchaseRow)
    (r : MailIngest) : Bool :=
  (match r.sale_id with
   | some s => sales.any (fun x => x.id = s)
   | none => true) &&
  (match r.purchase_id with
   | some p => purchases.any (fun x => x.id = p)
   | none => true)

/-- SQL `COALESCE(a, b)` on two nullable values. -/
def coalesceO (a b : Option α) : Option α :=
  match a with
  | some x => some x
  | none => b

/-- `get_or_create_customer`: look the name up, otherwise insert a fresh
customer row with zeroed aggregates.  Returns the customer id. -/
def get_or_create_customer (db : DB) (name : String) : DB × Nat :=
  match db.customers.find? (fun c => c.name = name) with
  | some c => (db, c.id)
  | none =>
    ({ db with
        customers := db.customers ++ [⟨db.nextCustomerId, name, 0, 0⟩],
        nextCustomerId := db.nextCustomerId + 1 }, db.nextCustomerId)

/-- `insert_sale`: create/find the customer, insert the sale row, bump the
customer aggregates, commit.  A `CHECK (amount >= 0)` violation raises
`IntegrityError` after the (already committed) customer creation; this is
modelled by returning `none` with the sale and aggregates unwritten. -/
def insert_sale (db : DB) (sale_date vendor item customer : String)
    (amount : Int) (profession category : Option String) : DB × Option Nat :=
  let dc := get_or_create_customer db customer
  let db1 := dc.1
  let cust_id := dc.2
  if amountCheck amount then
    let row : SaleRow :=
      ⟨db1.nextSaleId, sale_date, vendor, item, cust_id, amount, profession, category⟩
    ({ db1 with
        sales := db1.sales ++ [row],
        nextSaleId := db1.nextSaleId + 1,
        customers := db1.customers.map (fun c =>
          if c.id = cust_id then
            { c with total_spent := c.total_spent + amount,
                     total_purchases := c.total_purchases + 1 }
          else c) }, some row.id)
  else (db1, none)

/-- `insert_purchase`: insert the purchase row (same CHECK on amount). -/
def insert_purchase (db : DB) (sale_date item vendor : String) (amount : Int)
    (category : Option String) : DB × Option Nat :=
  if amountCheck amount then
    let row : PurchaseRow :=
      ⟨db.nextPurchaseId, sale_date, item, vendor, amount, category⟩
    ({ db with
        purchases := db.purchases ++ [row],
        nextPurchaseId := db.nextPurchaseId + 1 }, some row.id)
  else (db, none)

/-- `is_mail_processed`: an ingest record matches the (truthy) mail id, or
one matches the file path. -/
def is_mail_processed (db : DB) (mail_id : Option String) (file_path : String) :
    Bool :=
  (match mail_id with
   | some m => m ≠ "" && db.mail_ingests.any (fun r => r.mail_id = some m)
   | none => false) ||
  db.mail_ingests.any (fun r => r.file_path = file_path)

/-- `has_incomplete_rows_for_file`: the record for this path joins to a sale
with a NULL profession or category, or to a purchase with a NULL category. -/
def has_incomplete_rows_for_file (db : DB) (file_path : String) : Bool :=
  db.mail_ingests.any (fun mi =>
    mi.file_path = file_path &&
      db.sales.any (fun s =>
        some s.id = mi.sale_id && (s.profession.isNone || s.category.isNone))) ||
  db.mail_ingests.any (fun mi =>
    mi.file_path = file_path &&
      db.purchases.any (fun p =>
        some p.id = mi.purchase_id && p.category.isNone))

/-- `upsert_mail_ingest`.  The boolean result is `false` when the call
raised (`ValueError` for a bad argument pair, or `IntegrityError` from a
CHECK / UNIQUE / FK violation on the touched row), leaving the state
unchanged; `true` on success. -/
def upsert_mail_ingest (db : DB) (mail_id : Option String) (file_path : String)
    (file_mtime : Int) (sale_id purchase_id : Option Nat) : DB × Bool :=
  if (sale_id.isNone) = (purchase_id.isNone) then (db, false)
  else if db.mail_ingests.any (fun r => r.file_path = file_path) then
    let rows := db.mail_ingests.map (fun r =>
      if r.file_path = file_path then
        { r with
            mail_id := coalesceO mail_id r.mail_id,
            file_mtime := file_mtime,
            sale_id := coalesceO sale_id r.sale_id,
            purchase_id := coalesceO purchase_id r.purchase_id }
      else r)
    let ok := (rows.filter (fun r => r.file_path = file_path)).all (fun r =>
      exclusiveRow r &&
      (match r.mail_id with
       | some m =>
         (rows.filter (fun r2 => r2.file_path ≠ file_path)).all
           (fun r2 => r2.mail_id ≠ some m)
       | none => true) &&
      fkRowOK db.sales db.purchases r)
    if ok then ({ db with mail_ingests := rows }, true) else (db, false)
  else
    let row : MailIngest :=
      ⟨db.nextIngestId, mail_id, file_path, file_mtime, sale_id, purchase_id⟩
    let ok := exclusiveRow row &&
      (match mail_id with
       | some m => db.mail_ingests.all (fun r => r.mail_id ≠ some m)
       | none => true) &&
      db.mail_ingests.all (fun r => r.file_path ≠ file_path) &&
      fkRowOK db.sales db.purchases row
    if ok then
      ({ db with
          mail_ingests := db.mail_ingests ++ [row],
          nextIngestId := db.nextIngestId + 1 }, true)
    else (db, false)

/-- The purge block of `main` for an incomplete file: delete the linked
sales (whose deletion cascades to their ingest rows), then the linked
purchases (likewise), then any remaining ingest rows for the path. -/
def purge_file (db : DB) (file_path : String) : DB :=
  let saleIds := (db.mail_ingests.filter (fun r => r.file_path = file_path)).filterMap
    (fun r => r.sale_id)
  let sales1 := db.sales.filter (fun s => ¬ saleIds.contains s.id)
  let mi1 := db.mail_ingests.filter (fun r =>
    match r.sale_id with
    | some s => ¬ saleIds.contains s
    | none => true)
  let purchIds := (mi1.filter (fun r => r.file_path = file_path)).filterMap
    (fun r => r.purchase_id)
  let purchases1 := db.purchases.filter (fun p => ¬ purchIds.contains p.id)
  let mi2 := mi1.filter (fun r =>
    match r.purchase_id with
    | some p => ¬ purchIds.contains p
    | none => true)
  let mi3 := mi2.filter (fun r => r.file_path ≠ file_path)
  { db with sales := sales1, purchases := purchases1, mail_ingests := mi3 }

/-- One artifact: its path, mtime, and raw content lines. -/
structure Artifact where
  path : String
  mtime : Int
  lines : List String
deriving DecidableEq, Repr

/-- `get_mail_identity` (mail-id part): the first non-empty stripped line. -/
def mail_identity (rawLines : List String) : Option String :=
  (rawLines.map pyStrip).find? (fun l => l ≠ "")

/-- Per-artifact terminal outcome, as tallied by `main`. -/
inductive Outcome where
  | inserted
  | skipped
  | failed
deriving DecidableEq, Repr

/-- The try-block of `main`: classify and insert the terminal row, then
upsert the ingest record.  `false` means an exception was caught (the
artifact is tallied as failed); any rows committed before the exception
remain, exactly as with the per-statement commits in the source. -/
def ingest_entry (db : DB) (mail_id : Option String) (file_path : String)
    (mtime : Int) (e : Event) : DB × Bool :=
  match e with
  | .sale d v i c a =>
    let i' := stripEpak i
    let pc := classify_vendor_and_item "sale" v i'
    let r1 := insert_sale db d v i' c a pc.1 pc.2
    match r1.2 with
    | none => (r1.1, false)
    | some rid => upsert_mail_ingest r1.1 mail_id file_path mtime (some rid) none
  | .purchase d v i a =>
    let pc := classify_vendor_and_item "purchase" v i
    let r1 := insert_purchase db d i v a pc.2
    match r1.2 with
    | none => (r1.1, false)
    | some rid => upsert_mail_ingest r1.1 mail_id file_path mtime none (some rid)

/-- The body of `main`'s per-file loop: skip when already processed and
complete, purge when processed but incomplete, then parse and ingest. -/
def process_artifact (tzOff : Int) (db : DB) (art : Artifact) : DB × Outcome :=
  let mail_id := mail_identity art.lines
  let already := is_mail_processed db mail_id art.path
  let incomplete := has_incomplete_rows_for_file db art.path
  if already && !incomplete then (db, .skipped)
  else
    let db1 := if already && incomplete then purge_file db art.path else db
    match parse_mail_file tzOff art.lines with
    | none => (db1, .failed)
    | some e =>
      let r := ingest_entry db1 mail_id art.path art.mtime e
      (r.1, if r.2 then .inserted else .failed)

/-- The `Inserted / Skipped / Failed` tally printed by `main`. -/
structure Counts where
  inserted : Nat
  skipped : Nat
  failed : Nat
deriving DecidableEq, Repr

/-- One iteration of `main`'s per-file loop: process the artifact and bump
the matching tally. -/
def ingest_step (tzOff : Int) (acc : DB × Counts) (a : Artifact) : DB × Counts :=
  let r := process_artifact tzOff acc.1 a
  (r.1,
    match r.2 with
    | .inserted => { acc.2 with inserted := acc.2.inserted + 1 }
    | .skipped => { acc.2 with skipped := acc.2.skipped + 1 }
    | .failed => { acc.2 with failed := acc.2.failed + 1 })

/-- `main`'s ingestion pass over a list of artifacts, in locator order. -/
def run_ingestion (tzOff : Int) (db : DB) (arts : List Artifact) : DB × Counts :=
  arts.foldl (ingest_step tzOff) (db, ⟨0, 0, 0⟩)

/-- Sale artifact whose vendor matches no classifier rule, so its stored row
is incomplete (NULL profession and category). -/
def artBob : Artifact :=
  ⟨"inbox/900001.mail", 1,
    ["900001", "src", "Vendor Sale Complete", "TIMESTAMP: 1700000000",
     "Vendor: Bob has sold Widget to mara for 500 credits",
     "sold at Shop, on Naboo"]⟩

/-- Sale artifact classified completely (vendor rule `chef`). -/
def artChef : Artifact :=
  ⟨"inbox/a.mail", 1,
    ["M1", "src", "Vendor Sale Complete", "TIMESTAMP: 1700000000",
     "Vendor: Chef Delights has sold Pikatta Pie to kira for 100 credits",
     "sold at Shop, on Corellia"]⟩

/-- Earlier (incomplete) ingestion of path `inbox/b.mail`, mail id `X1`. -/
def artBOld : Artifact :=
  ⟨"inbox/b.mail", 1,
    ["X1", "src", "Vendor Sale Complete", "TIMESTAMP: 1700000100",
     "Vendor: Bob has sold Widget to mara for 50 credits",
     "sold at Shop, on Naboo"]⟩

/-- The same path re-scanned after its first line was edited to `M1`, the
mail id already recorded for `inbox/a.mail` (= `artChef`). -/
def artBNew : Artifact :=
  ⟨"inbox/b.mail", 2,
    ["M1", "src", "Vendor Sale Complete", "TIMESTAMP: 1700000200",
     "Vendor: Bob has sold Gadget to mara for 75 credits",
     "sold at Shop, on Naboo"]⟩

/-- The §8 example artifact of the specification. -/
def exLines : List String :=
  ["778001", "src", "Vendor Sale Complete", "TIMESTAMP: 1700000000",
   "Vendor: Weapons has sold Wookiee Carbine to zeta for 25000 credits",
   "sold at Shop, on Tatooine"]

/-- Sale artifact content whose item carries the trailing decoration tag. -/
def epakLines : List String :=
  ["900002", "src", "Vendor Sale Complete", "TIMESTAMP: 1700000300",
   "Vendor: Weapons has sold DXR6 Carbine | Epak to mara for 9000 credits",
   "sold at Shop, on Naboo"]

/-- The event that `exLines` parses to (with a zero UTC offset). -/
def exEvent : Event :=
  Event.sale "2023-11-14 22:13:20" "Weapons" "Wookiee Carbine" "zeta" 25000

/-- Ingest-record mutations observable at the ledger: record upsert, purge
of one artifact's rows, and a whole per-artifact processing step. -/
inductive LedgerOp where
  | upsert (mail_id : Option String) (file_path : String) (file_mtime : Int)
      (sale_id purchase_id : Option Nat)
  | purge (file_path : String)
  | ingest (tzOff : Int) (art : Artifact)
deriving Repr

def applyLedgerOp (db : DB) : LedgerOp → DB
  | .upsert m p t s q => (upsert_mail_ingest db m p t s q).1
  | .purge p => purge_file db p
  | .ingest tz a => (process_artifact tz db a).1

/-- The exclusive-linkage invariant over the whole `mail_ingests` table. -/
def ingests_exclusive (db : DB) : Bool :=
  db.mail_ingests.all exclusiveRow

theorem upsert_keeps_exclusive (db : DB) (m : Option String) (p : String)
    (t : Int) (s q : Option Nat) (h : ingests_exclusive db = true) :
    ingests_exclusive (upsert_mail_ingest db m p t s q).1 = true := by
  unfold ingests_exclusive at h ⊢
  rw [List.all_eq_true] at h
  simp only [upsert_mail_ingest]
  split
  · rwa [List.all_eq_true]
  · split
    · split
      next hok =>
        rw [List.all_eq_true]
        intro r' hr'
        simp only at hr'
        rcases List.mem_map.mp hr' with ⟨r, hrmem, rfl⟩
        by_cases hp : r.file_path = p
        · rw [List.all_eq_true] at hok
          have hmem : (if r.file_path = p then
              { r with mail_id := coalesceO m r.mail_id, file_mtime := t,
                       sale_id := coalesceO s r.sale_id,
                       purchase_id := coalesceO q r.purchase_id }
              else r) ∈
              (db.mail_ingests.map (fun r =>
                if r.file_path = p then
                  { r with mail_id := coalesceO m r.mail_id, file_mtime := t,
                           sale_id := coalesceO s r.sale_id,
                           purchase_id := coalesceO q r.purchase_id }
                else r)).filter (fun r => r.file_path = p) := by
            rw [List.mem_filter]
            refine ⟨List.mem_map_of_mem _ hrmem, ?_⟩
            rw [if_pos hp]
            simpa using hp
          have hbig := hok _ hmem
          simp only [Bool.and_eq_true] at hbig
          exact hbig.1.1
        · rw [if_neg hp]
          exact h r hrmem
      · rw [List.all_eq_true]
        exact h
    · split
      next hok =>
        rw [List.all_eq_true]
        intro r' hr'
        simp only at hr'
        rcases List.mem_append.mp hr' with hin | hin
        · exact h r' hin
        · rcases List.mem_singleton.mp hin with rfl
          simp only [Bool.and_eq_true] at hok
          exact hok.1.1.1
      · rw [List.all_eq_true]
        exact h

theorem purge_keeps_exclusive (db : DB) (p : String)
    (h : ingests_exclusive db = true) :
    ingests_exclusive (purge_file db p) = true := by
  unfold ingests_exclusive at h ⊢
  rw [List.all_eq_true] at h ⊢
  intro r hr
  simp only [purge_file] at hr
  exact h r (List.mem_filter.mp (List.mem_filter.mp (List.mem_filter.mp hr).1).1).1

theorem goc_ingests (db : DB) (n : String) :
    ((get_or_create_customer db n).1).mail_ingests = db.mail_ingests := by
  unfold get_or_create_customer
  split <;> rfl

theorem insert_sale_ingests (db : DB) (d v i c : String) (a : Int)
    (pr cat : Option String) :
    ((insert_sale db d v i c a pr cat).1).mail_ingests = db.mail_ingests := by
  simp only [insert_sale]
  split <;> simp [goc_ingests]

theorem insert_purchase_ingests (db : DB) (d i v : String) (a : Int)
    (cat : Option String) :
    ((insert_purchase db d i v a cat).1).mail_ingests = db.mail_ingests := by
  simp only [insert_purchase]
  split <;> rfl

theorem ingest_entry_keeps_exclusive (db : DB) (m : Option String) (p : String)
    (t : Int) (e : Event) (h : ingests_exclusive db = true) :
    ingests_exclusive (ingest_entry db m p t e).1 = true := by
  cases e with
  | sale d v i c a =>
    simp only [ingest_entry]
    split
    · unfold ingests_exclusive
      rw [insert_sale_ingests]
      exact h
    · exact upsert_keeps_exclusive _ _ _ _ _ _
        (by unfold ingests_exclusive; rw [insert_sale_ingests]; exact h)
  | purchase d v i a =>
    simp only [ingest_entry]
    split
    · unfold ingests_exclusive
      rw [insert_purchase_ingests]
      exact h
    · exact upsert_keeps_exclusive _ _ _ _ _ _
        (by unfold ingests_exclusive; rw [insert_purchase_ingests]; exact h)

theorem process_keeps_exclusive (tz : Int) (db : DB) (a : Artifact)
    (h : ingests_exclusive db = true) :
    ingests_exclusive (process_artifact tz db a).1 = true := by
  simp only [process_artifact]
  split
  · exact h
  · have hbase : ingests_exclusive
        (if is_mail_processed db (mail_identity a.lines) a.path &&
            has_incomplete_rows_for_file db a.path then
          purge_file db a.path else db) = true := by
      split
      · exact purge_keeps_exclusive _ _ h
      · exact h
    split
    · exact hbase
    · exact ingest_entry_keeps_exclusive _ _ _ _ _ hbase

theorem applyLedgerOp_keeps_exclusive (db : DB) (op : LedgerOp)
    (h : ingests_exclusive db = true) :
    ingests_exclusive (applyLedgerOp db op) = true := by
  cases op with
  | upsert m p t s q => exact upsert_keeps_exclusive db m p t s q h
  | purge p => exact purge_keeps_exclusive db p h
  | ingest tz a => exact process_keeps_exclusive tz db a h

theorem foldl_keeps_exclusive :
    ∀ (ops : List LedgerOp) (db : DB), ingests_exclusive db = true →
      ingests_exclusive (ops.foldl applyLedgerOp db) = true
  | [], _, h => h
  | op :: ops, db, h =>
    foldl_keeps_exclusive ops (applyLedgerOp db op)
      (applyLedgerOp_keeps_exclusive db op h)

example : pyStrip "  hi \t" = "hi" := by decide
example : occurs "carbine" "wookiee carbine" = true := by decide
example : natOfDigits "25000" = 25000 := by decide
example : fmtUTC 1700000000 = "2023-11-14 22:13:20" := by decide
example : stripEpak "DXR6 Carbine | Epak" = "DXR6 Carbine" := by decide
example :
    searchToks saleToks
      "Vendor: Weapons has sold Wookiee Carbine to zeta for 25000 credits".toList
      = some ["Weapons", "Wookiee Carbine", "zeta", "25000"] := by decide
example : parse_mail_file 0 exLines = some exEvent := by decide
example : (run_ingestion 0 emptyDB [artBob]).2 = ⟨1, 0, 0⟩ := by decide

/-- An already-processed artifact with complete classification is skipped
without touching the database. -/
theorem process_skip (tz : Int) (db : DB) (a : Artifact)
    (h1 : is_mail_processed db (mail_identity a.lines) a.path = true)
    (h2 : has_incomplete_rows_for_file db a.path = false) :
    process_artifact tz db a = (db, Outcome.skipped) := by
  simp [process_artifact, h1, h2]

theorem run_skipped_aux (tz : Int) :
    ∀ (arts : List Artifact) (db : DB) (c : Counts),
      (∀ a ∈ arts, is_mail_processed db (mail_identity a.lines) a.path = true ∧
        has_incomplete_rows_for_file db a.path = false) →
      arts.foldl (ingest_step tz) (db, c) =
        (db, ⟨c.inserted, c.skipped + arts.length, c.failed⟩)
  | [], db, c, _ => rfl
  | a :: arts, db, c, h => by
    have hstep : ingest_step tz (db, c) a =
        (db, ⟨c.inserted, c.skipped + 1, c.failed⟩) := by
      unfold ingest_step
      rw [process_skip tz db a (h a (by simp)).1 (h a (by simp)).2]
    rw [List.foldl_cons, hstep,
      run_skipped_aux tz arts db _ (fun x hx => h x (by simp [hx]))]
    simp only [List.length_cons, Prod.mk.injEq, Counts.mk.injEq, true_and,
      and_true]
    omega

theorem goc_sales (db : DB) (n : String) :
    ((get_or_create_customer db n).1).sales = db.sales := by
  unfold get_or_create_customer
  split <;> rfl

theorem goc_nextSaleId (db : DB) (n : String) :
    ((get_or_create_customer db n).1).nextSaleId = db.nextSaleId := by
  unfold get_or_create_customer
  split <;> rfl

theorem insert_sale_items (db : DB) (d v i c : String) (a : Int)
    (pr cat : Option String) (h : amountCheck a = true) :
    ((insert_sale db d v i c a pr cat).1).sales.map (fun s => s.item)
      = db.sales.map (fun s => s.item) ++ [i] := by
  simp only [insert_sale, h, if_true]
  simp [goc_sales]

theorem insert_sale_snd_isSome (db : DB) (d v i c : String) (a : Int)
    (pr cat : Option String) (h : amountCheck a = true) :
    ((insert_sale db d v i c a pr cat).2).isSome = true := by
  simp only [insert_sale, h, if_true]
  rfl

theorem upsert_sales (db : DB) (m : Option String) (p : String) (t : Int)
    (s q : Option Nat) :
    ((upsert_mail_ingest db m p t s q).1).sales = db.sales := by
  simp only [upsert_mail_ingest]
  split
  · rfl
  · split
    · split <;> rfl
    · split <;> rfl

/-- C1.  The claim as stated is FALSE on the code: an artifact whose stored
sale row got no classification (NULL profession/category) is treated as
incomplete on the second run, purged, re-parsed and re-inserted, so the
second run tallies it as inserted (not skipped) and the stored rows differ
(fresh row ids, double-counted customer aggregates).  Concrete input: the
single-artifact set `[artBob]`. -/
theorem c1_idempotence_counterexample :
    (run_ingestion 0 (run_ingestion 0 emptyDB [artBob]).1 [artBob]).2.inserted = 1 ∧
    (run_ingestion 0 (run_ingestion 0 emptyDB [artBob]).1 [artBob]).2.skipped = 0 ∧
    (run_ingestion 0 (run_ingestion 0 emptyDB [artBob]).1 [artBob]).1 ≠
      (run_ingestion 0 emptyDB [artBob]).1 := by
  decide

/-- C1 (amended).  Idempotence holds for artifact sets whose records are
already stored with complete classification: if every artifact in the set is
recorded (by mail id or path) and none has an incomplete linked row, a
re-run leaves the stored rows identical and tallies zero inserted with
every artifact counted as skipped. -/
theorem c1_idempotence_amended (tz : Int) (db : DB) (arts : List Artifact)
    (h : ∀ a ∈ arts, is_mail_processed db (mail_identity a.lines) a.path = true ∧
      has_incomplete_rows_for_file db a.path = false) :
    run_ingestion tz db arts = (db, ⟨0, arts.length, 0⟩) := by
  unfold run_ingestion
  rw [run_skipped_aux tz arts db ⟨0, 0, 0⟩ h]
  simp

/-- Witness for C1 (amended): after ingesting the fully classified artifact
`artChef`, the hypothesis holds concretely and a second run is a no-op with
tally (0 inserted, 1 skipped, 0 failed). -/
theorem c1_idempotence_amended_witness :
    (∀ a ∈ [artChef],
      is_mail_processed (run_ingestion 0 emptyDB [artChef]).1
        (mail_identity a.lines) a.path = true ∧
      has_incomplete_rows_for_file (run_ingestion 0 emptyDB [artChef]).1
        a.path = false) ∧
    run_ingestion 0 (run_ingestion 0 emptyDB [artChef]).1 [artChef]
      = ((run_ingestion 0 emptyDB [artChef]).1, ⟨0, 1, 0⟩) :=
  ⟨by decide, c1_idempotence_amended 0 _ _ (by decide)⟩

/-- C2.  Exclusive linkage invariant: after any sequence of ingest-record
upserts (insert or update), per-artifact purges, and whole processing
steps applied to a fresh database, every `mail_ingests` row has exactly one
of `sale_id` and `purchase_id` non-null. -/
theorem c2_exclusive_linkage (ops : List LedgerOp) :
    ingests_exclusive (ops.foldl applyLedgerOp emptyDB) = true :=
  foldl_keeps_exclusive ops emptyDB rfl

/-- C3.  The claim is violated by the code: processing `artBNew` (whose
`mail_id` collides with the record of `artChef` while its own path has an
incomplete record) fails inside `upsert_mail_ingest` AFTER `insert_sale`
has already committed, leaving the terminal sale row (id 3, "Gadget")
stored with no ingest record for the artifact - not "both or neither". -/
theorem c3_atomicity_violation :
    (process_artifact 0 (run_ingestion 0 emptyDB [artChef, artBOld]).1 artBNew).2
      = Outcome.failed ∧
    ((process_artifact 0 (run_ingestion 0 emptyDB [artChef, artBOld]).1 artBNew).1).sales.any
      (fun s => s.id = 3 && s.item = "Gadget") = true ∧
    ((process_artifact 0 (run_ingestion 0 emptyDB [artChef, artBOld]).1 artBNew).1).mail_ingests.all
      (fun r => r.sale_id ≠ some 3 && r.file_path ≠ "inbox/b.mail") = true := by
  decide

/-- C4.  The claim is violated by the code: re-ingesting `artBob` through
the purge-and-reparse path leaves customer "mara" with
`total_spent = 1000` and `total_purchases = 2`, while her only current
sale has amount 500 - the purge never reversed the first contribution. -/
theorem c4_aggregate_mismatch :
    (run_ingestion 0 (run_ingestion 0 emptyDB [artBob]).1 [artBob]).1.customers
      = [⟨1, "mara", 1000, 2⟩] ∧
    ((run_ingestion 0 (run_ingestion 0 emptyDB [artBob]).1 [artBob]).1.sales.filter
      (fun s => s.customer_id = 1)).map (fun s => s.amount) = [500] := by
  decide

/-- C5.  The §8 example artifact parses to a sale with vendor "Weapons",
item "Wookiee Carbine", customer "zeta", amount 25000 (whatever the local
UTC offset), and the classifier assigns profession "Weaponsmith" and
category "Carbine". -/
theorem c5_example_artifact (tzOff : Int) :
    (parse_mail_file tzOff exLines).map (fun e =>
      match e with
      | .sale _ v i c a => ("sale", v, i, c, a)
      | .purchase _ v i a => ("purchase", v, i, "", a))
      = some ("sale", "Weapons", "Wookiee Carbine", "zeta", (25000 : Int)) ∧
    classify_vendor_and_item "sale" "Weapons" "Wookiee Carbine"
      = (some "Weaponsmith", some "Carbine") :=
  ⟨rfl, rfl⟩

/-- C6.  The claim is violated by the code: `sale_date` is produced with
`datetime.fromtimestamp`, i.e. the LOCAL-time rendering.  In an
environment at UTC+01:00 the example timestamp 1700000000 is stored as
"2023-11-14 23:13:20", while its UTC rendering is "2023-11-14 22:13:20"
(which the program's own report header labels "(UTC)"). -/
theorem c6_local_time_not_utc :
    (parse_mail_file 3600 exLines).map Event.sale_date
      = some "2023-11-14 23:13:20" ∧
    fmtUTC 1700000000 = "2023-11-14 22:13:20" ∧
    fmtLocal 3600 1700000000 ≠ fmtUTC 1700000000 := by
  decide

/-- C7.  Content with fewer than 6 non-empty stripped lines is rejected
(parse returns none); with 6 or more the minimum-line check passes and the
parse proceeds to the body stage. -/
theorem c7_min_line_check (tzOff : Int) (rawLines : List String) :
    ((read_nonempty_lines rawLines).length < 6 →
      parse_mail_file tzOff rawLines = none) ∧
    (6 ≤ (read_nonempty_lines rawLines).length →
      parse_mail_file tzOff rawLines
        = parse_body tzOff (read_nonempty_lines rawLines)) := by
  constructor
  · intro h
    simp [parse_mail_file, h]
  · intro h
    simp [parse_mail_file, Nat.not_lt.mpr h]

/-- Witness for C7 at a 3-line artifact (rejected) and the 6-line example
artifact (check passes). -/
theorem c7_min_line_witness :
    parse_mail_file 0 ["778001", " ", "src"] = none ∧
    parse_mail_file 0 exLines = parse_body 0 (read_nonempty_lines exLines) :=
  ⟨(c7_min_line_check 0 ["778001", " ", "src"]).1 (by decide),
   (c7_min_line_check 0 exLines).2 (by decide)⟩

/-- C8.  The claim as stated is FALSE on the code: the EVENT RETURNED BY THE
PARSER keeps the trailing decoration tag (the trim happens later, in
`main`).  Concretely, `epakLines` parses to an event whose item is
"DXR6 Carbine | Epak", not the trimmed "DXR6 Carbine". -/
theorem c8_parser_keeps_tag :
    (parse_mail_file 0 epakLines).map Event.item = some "DXR6 Carbine | Epak" ∧
    stripEpak "DXR6 Carbine | Epak" = "DXR6 Carbine" ∧
    ("DXR6 Carbine | Epak" : String) ≠ "DXR6 Carbine" := by
  decide

/-- C8 (amended).  The cosmetic suffix trim is applied by the ingestion step
after parsing: for every sale event, the item value stored in the new sale
row is the parsed item with the trailing tag removed. -/
theorem c8_trim_amended (db : DB) (m : Option String) (p : String) (t : Int)
    (d v i c : String) (a : Int) (h : 0 ≤ a) :
    ((ingest_entry db m p t (Event.sale d v i c a)).1).sales.map (fun s => s.item)
      = db.sales.map (fun s => s.item) ++ [stripEpak i] := by
  have hc : amountCheck a = true := decide_eq_true h
  simp only [ingest_entry]
  split
  next hnone =>
    exfalso
    have hs := insert_sale_snd_isSome db d v (stripEpak i) c a
      (classify_vendor_and_item "sale" v (stripEpak i)).1
      (classify_vendor_and_item "sale" v (stripEpak i)).2 hc
    rw [hnone] at hs
    simp at hs
  next rid hsome =>
    rw [upsert_sales, insert_sale_items db d v (stripEpak i) c a _ _ hc]

/-- Witness for C8 (amended): ingesting the tagged item into a fresh
database stores the trimmed item. -/
theorem c8_trim_witness :
    ((ingest_entry emptyDB none "inbox/x.mail" 0
        (Event.sale "2023-11-14 22:13:20" "Weapons" "DXR6 Carbine | Epak"
          "mara" 9000)).1).sales.map (fun s => s.item)
      = [stripEpak "DXR6 Carbine | Epak"] :=
  c8_trim_amended emptyDB none "inbox/x.mail" 0 "2023-11-14 22:13:20" "Weapons"
    "DXR6 Carbine | Epak" "mara" 9000 (by decide)

/-- C9.  On purchase-kind inputs the classifier never assigns a profession,
and its result does not depend on the vendor at all (only on the item). -/
theorem c9_purchase_no_profession (vendor vendor' item : String) :
    (classify_vendor_and_item "purchase" vendor item).1 = none ∧
    classify_vendor_and_item "purchase" vendor item
      = classify_vendor_and_item "purchase" vendor' item :=
  ⟨rfl, rfl⟩

/-- C10.  Every event produced by the parser has a non-negative amount (it
comes from a digits-only capture), so the `amount >= 0` persistence check
is satisfied. -/
theorem c10_amount_nonneg (tzOff : Int) (rawLines : List String) (e : Event)
    (h : parse_mail_file tzOff rawLines = some e) :
    0 ≤ e.amount ∧ amountCheck e.amount = true := by
  have hamt : 0 ≤ e.amount := by
    simp only [parse_mail_file, parse_body] at h
    repeat' split at h
    all_goals first
      | exact Option.noConfusion h
      | (injection h with h; subst h; simp only [Event.amount]; omega)
  exact ⟨hamt, decide_eq_true hamt⟩

/-- Witness for C10 at the §8 example artifact. -/
theorem c10_amount_witness : 0 ≤ exEvent.amount ∧ amountCheck exEvent.amount = true :=
  c10_amount_nonneg 0 exLines exEvent (by decide)
